import Mathlib

/-!
Verification development for the mindpilot-mcp Live Diagram Synchronization
and Persistence Core. Definitions embed the TypeScript sources shallowly:
pure control flow becomes Lean functions, the asynchronous collaborators
(diagram renderer, file system, clock) become explicit parameters, and the
fallible operations return `Except`.
-/

namespace Mindpilot

/-- Modelled from the spec: the `DiagramEntry` record of §3 (the
`HistoryService` implementation `src/shared/historyService.ts` is not part of
the provided sources, only its callers are). Timestamps are abstract `Nat`
clock readings, ids are abstract opaque identifiers represented as `Nat`. -/
structure DiagramEntry where
  id : Nat
  diagram : String
  title : String
  collection : Option String
  createdAt : Nat
  updatedAt : Nat
  deriving DecidableEq

/-- The error taxonomy of spec §7 restricted to history-store operations. -/
inductive HistoryError
  | NotFoundError
  | ConflictError
  | StorageError
  deriving DecidableEq

/-- Modelled from the spec: the persisted state of the HistoryStore (§4.3,
§6 persisted-state layout): the full set of entries and collections plus the
id generator. `nextId` models the fresh unique id assignment of
`saveDiagram`. -/
structure HistoryStore where
  entries : List DiagramEntry
  collections : List String
  nextId : Nat
  deriving DecidableEq

/-- A store with no entries and no collections. -/
def emptyStore : HistoryStore := ⟨[], [], 0⟩

/-- Modelled from the spec: implicit creation of a Collection when first
referenced by an entry (§3 Collection, §4.3 `saveDiagram`). -/
def addCollection (cs : List String) : Option String → List String
  | none => cs
  | some c => if c ∈ cs then cs else cs ++ [c]

/-- Modelled from the spec: `saveDiagram(diagram, title, collection)` of
§4.3. `writeOk` models whether the backing file can be written; when it
cannot, the call fails with `StorageError` and the in-flight mutation is
abandoned (no state is produced). On success a fresh unique id is assigned
and the entry is appended (insertion order, oldest first). -/
def saveDiagram (s : HistoryStore) (writeOk : Bool) (diagram title : String)
    (collection : Option String) (now : Nat) :
    Except HistoryError (DiagramEntry × HistoryStore) :=
  if writeOk then
    let e : DiagramEntry := ⟨s.nextId, diagram, title, collection, now, now⟩
    Except.ok (e, ⟨s.entries ++ [e], addCollection s.collections collection, s.nextId + 1⟩)
  else
    Except.error HistoryError.StorageError

/-- The partial-fields argument of `updateDiagram` (§4.3, and the IPC
`HISTORY_UPDATE` handler's `Partial<Pick<..., title | collection | diagram>>`
shape). `none` means the field was not supplied. -/
structure DiagramUpdate where
  title : Option String
  diagram : Option String
  collection : Option (Option String)
  deriving DecidableEq

/-- Apply a partial update to one entry: only supplied fields change and
`updatedAt` is refreshed; `id` and `createdAt` are immutable. -/
def applyUpdate (e : DiagramEntry) (u : DiagramUpdate) (now : Nat) : DiagramEntry :=
  ⟨e.id, u.diagram.getD e.diagram, u.title.getD e.title,
    u.collection.getD e.collection, e.createdAt, now⟩

/-- Whether some entry of the store carries the given id. -/
def hasEntry (s : HistoryStore) (id : Nat) : Bool :=
  s.entries.any (fun e => e.id == id)

/-- Modelled from the spec: `updateDiagram(id, partialFields)` of §4.3 —
mutates only the supplied fields of the entry matching `id`, refreshes
`updatedAt`, fails with `NotFoundError` if no entry has that id. -/
def updateDiagram (s : HistoryStore) (id : Nat) (u : DiagramUpdate) (now : Nat) :
    Except HistoryError HistoryStore :=
  if hasEntry s id then
    Except.ok ⟨s.entries.map (fun e => if e.id == id then applyUpdate e u now else e),
      s.collections, s.nextId⟩
  else
    Except.error HistoryError.NotFoundError

/-- Modelled from the spec: `deleteDiagram(id)` of §4.3 — removes the entry;
deleting a nonexistent id fails with `NotFoundError`, not silently. -/
def deleteDiagram (s : HistoryStore) (id : Nat) : Except HistoryError HistoryStore :=
  if hasEntry s id then
    Except.ok ⟨s.entries.filter (fun e => !(e.id == id)), s.collections, s.nextId⟩
  else
    Except.error HistoryError.NotFoundError

/-- Modelled from the spec: `moveDiagram(id, collection)` of §4.3 — a
targeted `updateDiagram` that sets the (nullable) collection. -/
def moveDiagram (s : HistoryStore) (id : Nat) (c : Option String) (now : Nat) :
    Except HistoryError HistoryStore :=
  updateDiagram s id ⟨none, none, some c⟩ now

/-- Modelled from the spec: `createCollection(name)` of §4.3 — fails with
`ConflictError` if the name already exists. -/
def createCollection (s : HistoryStore) (name : String) :
    Except HistoryError HistoryStore :=
  if name ∈ s.collections then
    Except.error HistoryError.ConflictError
  else
    Except.ok ⟨s.entries, s.collections ++ [name], s.nextId⟩

/-- Modelled from the spec: `getDiagrams(collection?)` of §4.3 — all entries,
or only those in the given (nullable) collection when a filter is supplied. -/
def getDiagrams (s : HistoryStore) : Option (Option String) → List DiagramEntry
  | none => s.entries
  | some c => s.entries.filter (fun e => e.collection == c)

/-- `getCollections()` of §4.3. -/
def getCollections (s : HistoryStore) : List String := s.collections

/-- One mutating call of the history query surface (§6): the operations a
sequence of callers may issue against the store. `save` carries the
writability of the backing file at the moment of the call. -/
inductive StoreOp
  | save (writeOk : Bool) (diagram title : String) (collection : Option String) (now : Nat)
  | update (id : Nat) (u : DiagramUpdate) (now : Nat)
  | delete (id : Nat)
  | move (id : Nat) (c : Option String) (now : Nat)
  | createColl (name : String)
  deriving DecidableEq

/-- Run one operation; a failed operation leaves the persisted state intact
(§7: the in-flight mutation is abandoned, prior persisted state is left
intact). -/
def runOp (s : HistoryStore) : StoreOp → HistoryStore
  | .save w d t c now =>
    match saveDiagram s w d t c now with
    | .ok (_, s') => s'
    | .error _ => s
  | .update id u now =>
    match updateDiagram s id u now with
    | .ok s' => s'
    | .error _ => s
  | .delete id =>
    match deleteDiagram s id with
    | .ok s' => s'
    | .error _ => s
  | .move id c now =>
    match moveDiagram s id c now with
    | .ok s' => s'
    | .error _ => s
  | .createColl n =>
    match createCollection s n with
    | .ok s' => s'
    | .error _ => s

/-- Run a sequence of operations in order. -/
def runOps (s : HistoryStore) (ops : List StoreOp) : HistoryStore :=
  ops.foldl runOp s

/-- The entry returned by an operation when it is a successful save. -/
def saveResult (s : HistoryStore) : StoreOp → Option DiagramEntry
  | .save w d t c now =>
    match saveDiagram s w d t c now with
    | .ok (e, _) => some e
    | .error _ => none
  | _ => none

/-- The ids handed back to callers by the successful `saveDiagram` calls of a
sequence, in call order. -/
def savedIds : HistoryStore → List StoreOp → List Nat
  | _, [] => []
  | s, op :: ops =>
    match saveResult s op with
    | some e => e.id :: savedIds (runOp s op) ops
    | none => savedIds (runOp s op) ops

/-- The ids currently present in the store. -/
def entryIds (s : HistoryStore) : List Nat := s.entries.map DiagramEntry.id

/-- The store's id-uniqueness invariant: no two entries share an id, and
every assigned id is below the generator. -/
def storeInv (s : HistoryStore) : Prop :=
  (entryIds s).Nodup ∧ ∀ e ∈ s.entries, e.id < s.nextId

instance (s : HistoryStore) : Decidable (storeInv s) := by
  unfold storeInv; infer_instance

/-- The id `i` has been retired: it is below the generator and no entry
carries it. Once established, no later operation can reintroduce it. -/
def idAbsent (i : Nat) (s : HistoryStore) : Prop :=
  i < s.nextId ∧ i ∉ entryIds s

/-! ## The render_mermaid tool flow

Embeds `EmbeddedMCPServer.renderMermaid` from
`src/src/electron/mcp/embeddedServer.ts` (lines 166-212). The external
diagram-rendering collaborator is a parameter (`renderOutcome`), as are the
backing-file writability, the resolved collection, the clock and whether a
diagram-update handler is registered. -/

/-- The collaborator's result: `renderMermaid(diagram, background)` returns
either a success artifact or a structured error carrying the diagram source
and a human-readable message (`RenderResult` of the shared types). -/
inductive RenderResult
  | success (svg : String)
  | rerror (diagram : String) (message : String)
  deriving DecidableEq

/-- Everything observable about one `EmbeddedMCPServer.renderMermaid` call:
the result returned to the tool caller, the resulting store state, the id of
the entry persisted to history (if any) and whether the renderer was
notified via the diagram-update handler. -/
structure RenderFlow where
  result : RenderResult
  store : HistoryStore
  savedId : Option Nat
  notifiedRenderer : Bool
  deriving DecidableEq

/-- `EmbeddedMCPServer.renderMermaid` (embeddedServer.ts lines 166-212):
an error from the rendering collaborator is returned immediately; on render
success, when a title is present the diagram is saved to history inside a
`try`/`catch` whose `catch` only logs — a save failure leaves `diagramId`
undefined and the flow still returns a success result. The update handler
fires only when a handler is set, a diagram id was produced and a title is
present. -/
def embeddedRenderMermaid (renderOutcome : RenderResult) (diagram : String)
    (title : Option String) (s : HistoryStore) (writeOk : Bool)
    (collection : Option String) (now : Nat) (hasUpdateHandler : Bool) : RenderFlow :=
  match renderOutcome with
  | .rerror d m => ⟨.rerror d m, s, none, false⟩
  | .success svg =>
    match title with
    | none => ⟨.success svg, s, none, false⟩
    | some t =>
      match saveDiagram s writeOk diagram t collection now with
      | .ok (e, s') => ⟨.success svg, s', some e.id, hasUpdateHandler⟩
      | .error _ => ⟨.success svg, s, none, false⟩

/-- The `DIAGRAM_RENDER` IPC handler (`initializeIPCHandlers`, ipc handlers
file lines 20-35): saves only when the render succeeded and both
`workingDir` and `title` were supplied; its `catch` falls through to
returning the bare success result without a `diagramId`. -/
def ipcDiagramRender (renderOutcome : RenderResult) (diagram : String)
    (workingDir : Option String) (title : Option String) (s : HistoryStore)
    (writeOk : Bool) (collection : Option String) (now : Nat) :
    RenderResult × HistoryStore × Option Nat :=
  match renderOutcome with
  | .rerror d m => (.rerror d m, s, none)
  | .success svg =>
    match workingDir, title with
    | some _, some t =>
      match saveDiagram s writeOk diagram t collection now with
      | .ok (e, s') => (.success svg, s', some e.id)
      | .error _ => (.success svg, s, none)
    | _, _ => (.success svg, s, none)

/-! ## The MCP call-tool dispatcher

Embeds the `CallToolRequestSchema` handler of
`EmbeddedMCPServer.setupHandlers` (embeddedServer.ts lines 117-163). The
per-tool work is a parameter `run`: `Except.error msg` models the awaited
tool handler throwing with message `msg`. -/

/-- The response handed back to the MCP transport: a normal JSON payload, or
the `JSON.stringify({ error: message })` text produced by the handler's
`catch`. Either way the handler returns normally (no exception reaches the
transport). -/
inductive ToolCallResult
  | success (payload : String)
  | errorPayload (message : String)
  deriving DecidableEq

/-- The call-tool dispatcher: known tool names run their handler inside the
`try`; any other name throws `Unknown tool: <name>`; the `catch` converts
every thrown error into an error payload response. -/
def handleCallTool (name : String) (run : String → Except String String) : ToolCallResult :=
  let attempt : Except String String :=
    if name == "render_mermaid" then run name
    else if name == "open_ui" then run name
    else Except.error ("Unknown tool: " ++ name)
  match attempt with
  | .ok payload => .success payload
  | .error msg => .errorPayload msg

/-! ## Viewer message handling

Embeds the `onMessage` callback of `App` in `src/src/client/src/App.tsx`
(lines 82-104). The viewer state kept by the callback is the current diagram
source, the status line and the manual-zoom flag; `hidden` is the value of
`document.hidden` at the moment the message arrives. -/

/-- A live-channel message envelope as the viewer sees it: the discriminant
`type` and the optional `diagram` payload field. -/
structure WsMessage where
  type : String
  diagram : Option String
  deriving DecidableEq

/-- The viewer-side state touched by the `onMessage` callback. -/
structure ViewerState where
  diagram : String
  status : String
  hasManuallyZoomed : Bool
  deriving DecidableEq

/-- A message sent by the viewer back to the hub. -/
inductive OutMessage
  | visibilityResponse (isVisible : Bool)
  deriving DecidableEq

/-- JavaScript truthiness of `data.diagram`: present and non-empty. -/
def msgDiagramTruthy (m : WsMessage) : Bool :=
  match m.diagram with
  | some s => !(s == "")
  | none => false

/-- The `onMessage` callback (App.tsx lines 82-104): a `render_result` with
a truthy diagram is adopted as the current diagram (resetting the
manual-zoom flag and status); a `visibility_query` is answered synchronously
with `visibility_response` carrying `!document.hidden`; every other message
falls through the `if`/`else if` chain and does nothing. -/
def onMessage (st : ViewerState) (hidden : Bool) (m : WsMessage) :
    ViewerState × List OutMessage :=
  if m.type == "render_result" && msgDiagramTruthy m then
    (⟨m.diagram.getD "", "Rendered successfully (via broadcast)", false⟩, [])
  else if m.type == "visibility_query" then
    (st, [OutMessage.visibilityResponse (!hidden)])
  else
    (st, [])

/-! ## Broadcast hub -/

/-- Modelled from the spec: one registered viewer connection of the
BroadcastHub (§4.2; the server-side hub implementation is not among the
provided sources — `src/src/electron/main.ts` lines 60-67 only relay to the
single Electron window). `inbox` is the ordered log of events delivered to
this connection. -/
structure HubConn where
  cid : Nat
  inbox : List String
  deriving DecidableEq

/-- Modelled from the spec: the BroadcastHub's live connection set (§4.2). -/
structure BroadcastHub where
  conns : List HubConn
  nextCid : Nat
  deriving DecidableEq

/-- A hub with no registered viewers. -/
def emptyHub : BroadcastHub := ⟨[], 0⟩

/-- Modelled from the spec: `registerConnection(transport)` of §4.2 — adds a
viewer with an empty delivery log (no buffering or replay for late
joiners). -/
def registerConnection (h : BroadcastHub) : Nat × BroadcastHub :=
  (h.nextCid, ⟨h.conns ++ [⟨h.nextCid, []⟩], h.nextCid + 1⟩)

/-- Modelled from the spec: `broadcast(event)` of §4.2 — delivers the event
exactly once to every connection registered at call time, appending it to
each delivery log. -/
def broadcast (h : BroadcastHub) (event : String) : BroadcastHub :=
  ⟨h.conns.map (fun c => ⟨c.cid, c.inbox ++ [event]⟩), h.nextCid⟩

/-- A sequence of `broadcast` calls, in call order. -/
def broadcastAll (h : BroadcastHub) (events : List String) : BroadcastHub :=
  events.foldl broadcast h

/-! ## Store lemmas -/

/-- No operation ever decreases the id generator. -/
theorem nextId_le_runOp (s : HistoryStore) (op : StoreOp) :
    s.nextId ≤ (runOp s op).nextId := by
  cases op with
  | save w d t c now =>
    cases w with
    | false => simp [runOp, saveDiagram]
    | true => simp [runOp, saveDiagram]
  | update id u now =>
    by_cases h : hasEntry s id = true <;> simp [runOp, updateDiagram, h]
  | delete id =>
    by_cases h : hasEntry s id = true <;> simp [runOp, deleteDiagram, h]
  | move id c now =>
    by_cases h : hasEntry s id = true <;> simp [runOp, moveDiagram, updateDiagram, h]
  | createColl n =>
    by_cases h : n ∈ s.collections <;> simp [runOp, createCollection, h]

/-- Mapping an id-preserving function over the entries leaves the id list
unchanged. -/
theorem map_ids_of_id_fix (l : List DiagramEntry) (f : DiagramEntry → DiagramEntry)
    (hf : ∀ e, (f e).id = e.id) :
    (l.map f).map DiagramEntry.id = l.map DiagramEntry.id := by
  induction l with
  | nil => rfl
  | cons x xs ih => simp [hf, ih]

/-- The per-entry function of `updateDiagram` preserves ids. -/
theorem update_fun_id_fix (id : Nat) (u : DiagramUpdate) (now : Nat) :
    ∀ e : DiagramEntry, (if e.id == id then applyUpdate e u now else e).id = e.id := by
  intro e
  by_cases h : e.id == id <;> simp [h, applyUpdate]

/-- Every operation preserves the id-uniqueness invariant. -/
theorem storeInv_runOp (s : HistoryStore) (op : StoreOp) (hs : storeInv s) :
    storeInv (runOp s op) := by
  obtain ⟨hnd, hlt⟩ := hs
  cases op with
  | save w d t c now =>
    cases w with
    | false => exact ⟨hnd, hlt⟩
    | true =>
      constructor
      · simp only [runOp, saveDiagram, if_pos, entryIds, List.map_append, List.map_cons,
          List.map_nil]
        rw [List.nodup_append]
        refine ⟨hnd, List.nodup_singleton _, ?_⟩
        intro a ha hb
        simp at hb
        obtain ⟨e, he, rfl⟩ := List.mem_map.mp ha
        exact absurd hb (Nat.ne_of_lt (hlt e he))
      · intro e he
        simp only [runOp, saveDiagram, if_pos] at he ⊢
        rcases List.mem_append.mp he with h | h
        · exact Nat.lt_trans (hlt e h) (Nat.lt_succ_self _)
        · simp at h
          subst h
          exact Nat.lt_succ_self _
  | update id u now =>
    by_cases h : hasEntry s id = true
    · constructor
      · simp only [runOp, updateDiagram, h, if_pos, entryIds]
        rw [map_ids_of_id_fix _ _ (update_fun_id_fix id u now)]
        exact hnd
      · intro e he
        simp only [runOp, updateDiagram, h, if_pos] at he ⊢
        obtain ⟨x, hx, rfl⟩ := List.mem_map.mp he
        rw [update_fun_id_fix id u now x]
        exact hlt x hx
    · simpa [runOp, updateDiagram, h] using ⟨hnd, hlt⟩
  | delete id =>
    by_cases h : hasEntry s id = true
    · constructor
      · simp only [runOp, deleteDiagram, h, if_pos, entryIds]
        exact ((List.filter_sublist _).map DiagramEntry.id).nodup hnd
      · intro e he
        simp only [runOp, deleteDiagram, h, if_pos] at he ⊢
        exact hlt e (List.mem_of_mem_filter he)
    · simpa [runOp, deleteDiagram, h] using ⟨hnd, hlt⟩
  | move id c now =>
    by_cases h : hasEntry s id = true
    · constructor
      · simp only [runOp, moveDiagram, updateDiagram, h, if_pos, entryIds]
        rw [map_ids_of_id_fix _ _ (update_fun_id_fix id ⟨none, none, some c⟩ now)]
        exact hnd
      · intro e he
        simp only [runOp, moveDiagram, updateDiagram, h, if_pos] at he ⊢
        obtain ⟨x, hx, rfl⟩ := List.mem_map.mp he
        rw [update_fun_id_fix id ⟨none, none, some c⟩ now x]
        exact hlt x hx
    · simpa [runOp, moveDiagram, updateDiagram, h] using ⟨hnd, hlt⟩
  | createColl n =>
    by_cases h : n ∈ s.collections <;>
      simpa [runOp, createCollection, h] using ⟨hnd, hlt⟩

/-- The id-uniqueness invariant holds after any sequence of operations. -/
theorem storeInv_runOps (s : HistoryStore) (ops : List StoreOp) (hs : storeInv s) :
    storeInv (runOps s ops) := by
  induction ops generalizing s with
  | nil => exact hs
  | cons op ops ih =>
    simpa [runOps] using ih (runOp s op) (storeInv_runOp s op hs)

/-- An operation hands an entry back to its caller only when it is a save
that succeeded, and then the entry's id is the generator value and the
generator advances. -/
theorem saveResult_some (s : HistoryStore) (op : StoreOp) (e : DiagramEntry)
    (h : saveResult s op = some e) :
    e.id = s.nextId ∧ (runOp s op).nextId = s.nextId + 1 := by
  cases op with
  | save w d t c now =>
    cases w with
    | false => simp [saveResult, saveDiagram] at h
    | true =>
      simp only [saveResult, saveDiagram, if_pos, Option.some.injEq] at h
      subst h
      exact ⟨rfl, rfl⟩
  | update id u now => simp [saveResult] at h
  | delete id => simp [saveResult] at h
  | move id c now => simp [saveResult] at h
  | createColl n => simp [saveResult] at h

/-- Every id a save hands back is at least the generator value at the start
of the sequence. -/
theorem savedIds_ge (ops : List StoreOp) :
    ∀ (s : HistoryStore) (i : Nat), i ∈ savedIds s ops → s.nextId ≤ i := by
  induction ops with
  | nil => intro s i h; simp [savedIds] at h
  | cons op ops ih =>
    intro s i h
    cases hsr : saveResult s op with
    | none =>
      simp only [savedIds, hsr] at h
      exact Nat.le_trans (nextId_le_runOp s op) (ih _ _ h)
    | some e =>
      simp only [savedIds, hsr, List.mem_cons] at h
      obtain ⟨hid, hnext⟩ := saveResult_some s op e hsr
      rcases h with rfl | h
      · exact Nat.le_of_eq hid.symm
      · have := ih _ _ h
        omega

/-- The ids handed back by the successful saves of a sequence never
repeat. -/
theorem savedIds_nodup (ops : List StoreOp) :
    ∀ s : HistoryStore, (savedIds s ops).Nodup := by
  induction ops with
  | nil => intro s; simp [savedIds]
  | cons op ops ih =>
    intro s
    cases hsr : saveResult s op with
    | none => simpa [savedIds, hsr] using ih (runOp s op)
    | some e =>
      simp only [savedIds, hsr]
      refine List.nodup_cons.mpr ⟨?_, ih (runOp s op)⟩
      intro hmem
      obtain ⟨hid, hnext⟩ := saveResult_some s op e hsr
      have := savedIds_ge ops (runOp s op) e.id hmem
      omega

/-- An id is present exactly when some entry carries it. -/
theorem hasEntry_iff (s : HistoryStore) (i : Nat) :
    hasEntry s i = true ↔ i ∈ entryIds s := by
  constructor
  · intro h
    obtain ⟨e, he, heq⟩ := List.any_eq_true.mp h
    have heid : e.id = i := by simpa using heq
    exact heid ▸ List.mem_map_of_mem _ he
  · intro h
    obtain ⟨e, he, rfl⟩ := List.mem_map.mp h
    exact List.any_eq_true.mpr ⟨e, he, by simp⟩

/-- A retired id stays retired across any single operation: saves assign
only fresh generator values, updates preserve ids, deletes only remove. -/
theorem idAbsent_runOp (i : Nat) (s : HistoryStore) (op : StoreOp)
    (h : idAbsent i s) : idAbsent i (runOp s op) := by
  obtain ⟨hlt, hmem⟩ := h
  cases op with
  | save w d t c now =>
    cases w with
    | false => exact ⟨hlt, hmem⟩
    | true =>
      constructor
      · simp only [runOp, saveDiagram, if_pos]
        omega
      · simp only [runOp, saveDiagram, if_pos, entryIds, List.map_append,
          List.map_cons, List.map_nil]
        intro hc
        rcases List.mem_append.mp hc with hc | hc
        · exact hmem hc
        · simp at hc; omega
  | update id u now =>
    by_cases hh : hasEntry s id = true
    · constructor
      · simpa [runOp, updateDiagram, hh] using hlt
      · simp only [runOp, updateDiagram, hh, if_pos, entryIds]
        rw [map_ids_of_id_fix _ _ (update_fun_id_fix id u now)]
        exact hmem
    · simpa [runOp, updateDiagram, hh] using ⟨hlt, hmem⟩
  | delete id =>
    by_cases hh : hasEntry s id = true
    · constructor
      · simpa [runOp, deleteDiagram, hh] using hlt
      · simp only [runOp, deleteDiagram, hh, if_pos, entryIds]
        intro hc
        obtain ⟨e, he, rfl⟩ := List.mem_map.mp hc
        exact hmem (List.mem_map_of_mem _ (List.mem_of_mem_filter he))
    · simpa [runOp, deleteDiagram, hh] using ⟨hlt, hmem⟩
  | move id c now =>
    by_cases hh : hasEntry s id = true
    · constructor
      · simpa [runOp, moveDiagram, updateDiagram, hh] using hlt
      · simp only [runOp, moveDiagram, updateDiagram, hh, if_pos, entryIds]
        rw [map_ids_of_id_fix _ _ (update_fun_id_fix id ⟨none, none, some c⟩ now)]
        exact hmem
    · simpa [runOp, moveDiagram, updateDiagram, hh] using ⟨hlt, hmem⟩
  | createColl n =>
    by_cases hh : n ∈ s.collections <;>
      simpa [runOp, createCollection, hh] using ⟨hlt, hmem⟩

/-- A retired id stays retired across any sequence of operations. -/
theorem idAbsent_runOps (i : Nat) (s : HistoryStore) (ops : List StoreOp)
    (h : idAbsent i s) : idAbsent i (runOps s ops) := by
  induction ops generalizing s with
  | nil => exact h
  | cons op ops ih =>
    simpa [runOps] using ih (runOp s op) (idAbsent_runOp i s op h)

/-! ## Broadcast lemmas -/

/-- Two successive per-connection deliveries compose into one delivery of
the concatenated event list. -/
theorem map_append_inbox (l : List HubConn) (a : String) (evs : List String) :
    (l.map (fun c => (⟨c.cid, c.inbox ++ [a]⟩ : HubConn))).map
        (fun c => (⟨c.cid, c.inbox ++ evs⟩ : HubConn))
      = l.map (fun c => (⟨c.cid, c.inbox ++ a :: evs⟩ : HubConn)) := by
  induction l with
  | nil => rfl
  | cons x xs ih =>
    simp only [List.map_cons, ih]
    congr 1
    simp

/-- Appending the empty event list to every inbox is the identity. -/
theorem map_inbox_nil (l : List HubConn) :
    l.map (fun c => (⟨c.cid, c.inbox ++ ([] : List String)⟩ : HubConn)) = l := by
  induction l with
  | nil => rfl
  | cons x xs ih => rw [List.map_cons, ih, List.append_nil]

/-- A sequence of broadcasts appends exactly the event sequence, in call
order, to the delivery log of every connection registered at the start. -/
theorem broadcastAll_conns (events : List String) :
    ∀ h : BroadcastHub,
      (broadcastAll h events).conns
        = h.conns.map (fun c => ⟨c.cid, c.inbox ++ events⟩) := by
  induction events with
  | nil =>
    intro h
    simp [broadcastAll, map_inbox_nil]
  | cons e evs ih =>
    intro h
    have hstep : broadcastAll h (e :: evs) = broadcastAll (broadcast h e) evs := rfl
    rw [hstep, ih, broadcast, map_append_inbox]

/-! ## Claims -/

/-- C1: over every sequence of store operations, the ids handed back by
`saveDiagram` are pairwise distinct, and at every intermediate state of the
sequence no two entries of the store share an id (the id-uniqueness
invariant holds for the lifetime of the store). -/
theorem save_ids_pairwise_distinct (ops : List StoreOp) (s : HistoryStore)
    (hs : storeInv s) :
    (savedIds s ops).Nodup ∧
      ∀ pre suf, ops = pre ++ suf → storeInv (runOps s pre) := by
  refine ⟨savedIds_nodup ops s, ?_⟩
  intro pre suf hps
  exact storeInv_runOps s pre hs

/-- Witness for C1 at a concrete two-save run from the empty store. -/
theorem save_ids_pairwise_distinct_witness :
    (savedIds emptyStore
        [.save true "graph TD;A-->B" "flow" none 0,
         .save true "graph LR;X-->Y" "arch" (some "project-x") 1]).Nodup ∧
      storeInv (runOps emptyStore [.save true "graph TD;A-->B" "flow" none 0]) := by
  have h := save_ids_pairwise_distinct
    [.save true "graph TD;A-->B" "flow" none 0,
     .save true "graph LR;X-->Y" "arch" (some "project-x") 1]
    emptyStore (by decide)
  exact ⟨h.1, h.2 [.save true "graph TD;A-->B" "flow" none 0]
    [.save true "graph LR;X-->Y" "arch" (some "project-x") 1] rfl⟩

/-- C2 counterexample: with the backing file unwritable, `saveDiagram`
itself fails with `StorageError`, yet the `render_mermaid` tool flow that
triggered the save returns a success result with no saved id — the tool
caller does not observe the failure. -/
theorem render_save_failure_cex :
    saveDiagram emptyStore false "graph TD;A-->B" "flow" none 0
        = Except.error HistoryError.StorageError ∧
      (embeddedRenderMermaid (RenderResult.success "<svg/>") "graph TD;A-->B"
          (some "flow") emptyStore false none 0 true).result
        = RenderResult.success "<svg/>" ∧
      (embeddedRenderMermaid (RenderResult.success "<svg/>") "graph TD;A-->B"
          (some "flow") emptyStore false none 0 true).savedId = none :=
  ⟨rfl, rfl, rfl⟩

/-- C2 amended: `saveDiagram` surfaces `StorageError` to its immediate
caller and abandons the mutation, but both render entry points
(`EmbeddedMCPServer.renderMermaid` and the `DIAGRAM_RENDER` IPC handler)
catch the save failure, leave the prior store state intact, and still
return a success render result without a diagram id, so the tool invoker
observes success rather than the failure. -/
theorem render_save_failure_amended (s : HistoryStore) (diagram t wd : String)
    (collection : Option String) (now : Nat) (svg : String) (hh : Bool) :
    saveDiagram s false diagram t collection now
        = Except.error HistoryError.StorageError ∧
      embeddedRenderMermaid (RenderResult.success svg) diagram (some t) s false
          collection now hh
        = ⟨RenderResult.success svg, s, none, false⟩ ∧
      ipcDiagramRender (RenderResult.success svg) diagram (some wd) (some t) s false
          collection now
        = (RenderResult.success svg, s, none) :=
  ⟨rfl, rfl, rfl⟩

/-- C3: when the rendering collaborator reports an error, the
`render_mermaid` flow returns that structured error (with its
human-readable message) to the caller, persists nothing and notifies
nobody; and conversely the flow mutates the store only when the render
succeeded. -/
theorem render_error_no_persist (ro : RenderResult) (diagram : String)
    (title : Option String) (s : HistoryStore) (w : Bool)
    (collection : Option String) (now : Nat) (hh : Bool) :
    (∀ d m, ro = RenderResult.rerror d m →
      embeddedRenderMermaid ro diagram title s w collection now hh
        = ⟨RenderResult.rerror d m, s, none, false⟩) ∧
      ((embeddedRenderMermaid ro diagram title s w collection now hh).store ≠ s →
        ∃ svg, ro = RenderResult.success svg) := by
  constructor
  · intro d m h
    subst h
    rfl
  · intro hne
    cases ro with
    | success svg => exact ⟨svg, rfl⟩
    | rerror d m => exact absurd rfl hne

/-- Witness for C3 at a concrete failed render and a concrete store-changing
successful render. -/
theorem render_error_no_persist_witness :
    embeddedRenderMermaid (RenderResult.rerror "graph XX" "Parse error on line 1")
        "graph XX" (some "flow") emptyStore true none 0 true
      = ⟨RenderResult.rerror "graph XX" "Parse error on line 1", emptyStore, none, false⟩ ∧
      ∃ svg, (RenderResult.success "<svg/>") = RenderResult.success svg :=
  ⟨(render_error_no_persist (RenderResult.rerror "graph XX" "Parse error on line 1")
      "graph XX" (some "flow") emptyStore true none 0 true).1
      "graph XX" "Parse error on line 1" rfl,
    (render_error_no_persist (RenderResult.success "<svg/>") "graph TD;A-->B"
      (some "flow") emptyStore true none 0 true).2 (by decide)⟩

/-- C4: one sequence of `broadcast` calls delivers exactly that event
sequence, in call order, appended once to the delivery log of every one of
the connections registered at call time (so N connections receive exactly N
deliveries per event, each exactly once, in broadcast order), while a
viewer registered afterwards starts with an empty delivery log and receives
none of the earlier events. -/
theorem broadcast_fanout (h : BroadcastHub) (events : List String) :
    (broadcastAll h events).conns
        = h.conns.map (fun c => ⟨c.cid, c.inbox ++ events⟩) ∧
      (registerConnection (broadcastAll h events)).2.conns
        = (broadcastAll h events).conns
            ++ [⟨(broadcastAll h events).nextCid, []⟩] :=
  ⟨broadcastAll_conns events h, rfl⟩

/-- C5 counterexample: a `render_result` message whose `diagram` field is
present but empty is not adopted — the `data.diagram` truthiness guard
rejects it, so the viewer keeps its previous diagram. -/
theorem render_result_empty_diagram_cex :
    onMessage ⟨"graph TD;old", "Ready", true⟩ false ⟨"render_result", some ""⟩
        = (⟨"graph TD;old", "Ready", true⟩, []) ∧
      ("graph TD;old" : String) ≠ "" := by
  constructor
  · rfl
  · decide

/-- C5 amended: a `render_result` message with a non-empty `diagram` field
makes the viewer adopt that diagram as current (resetting status and the
manual-zoom flag), without the viewer sending any request or reply. -/
theorem render_result_adopts_diagram (st : ViewerState) (hidden : Bool)
    (d : String) (hd : d ≠ "") :
    onMessage st hidden ⟨"render_result", some d⟩
      = (⟨d, "Rendered successfully (via broadcast)", false⟩, []) := by
  have hb : (d == "") = false := by simpa using hd
  simp [onMessage, msgDiagramTruthy, hb]

/-- Witness for C5 at the spec's concrete broadcast payload. -/
theorem render_result_adopts_diagram_witness :
    onMessage ⟨"", "Ready", false⟩ false ⟨"render_result", some "graph TD;A-->B"⟩
      = (⟨"graph TD;A-->B", "Rendered successfully (via broadcast)", false⟩, []) :=
  render_result_adopts_diagram ⟨"", "Ready", false⟩ false "graph TD;A-->B" (by decide)

/-- C6: a `visibility_query` is answered synchronously (same message-handler
step, no state change) with a `visibility_response` whose boolean reflects
the page's visibility (`!document.hidden`) at that moment. -/
theorem visibility_query_response (st : ViewerState) (hidden : Bool)
    (d : Option String) :
    onMessage st hidden ⟨"visibility_query", d⟩
      = (st, [OutMessage.visibilityResponse (!hidden)]) := by
  rfl

/-- C7: a message whose type is neither `render_result` nor
`visibility_query` leaves the viewer state unchanged and produces no reply
(the handler is total, so it cannot throw or tear the connection down). -/
theorem unknown_message_ignored (st : ViewerState) (hidden : Bool)
    (m : WsMessage) (h1 : m.type ≠ "render_result")
    (h2 : m.type ≠ "visibility_query") :
    onMessage st hidden m = (st, []) := by
  have hb1 : (m.type == "render_result") = false := by simpa using h1
  have hb2 : (m.type == "visibility_query") = false := by simpa using h2
  simp [onMessage, hb1, hb2]

/-- Witness for C7 at a concrete forward-compatible message type. -/
theorem unknown_message_ignored_witness :
    onMessage ⟨"graph TD;A-->B", "Ready", false⟩ true ⟨"future_event", some "x"⟩
      = (⟨"graph TD;A-->B", "Ready", false⟩, []) :=
  unknown_message_ignored ⟨"graph TD;A-->B", "Ready", false⟩ true
    ⟨"future_event", some "x"⟩ (by decide) (by decide)

/-- C8: after `deleteDiagram(id)` succeeds, no later sequence of store
operations makes `getDiagrams` (with or without a collection filter) return
an entry with that id again, and a second `deleteDiagram(id)` fails with
`NotFoundError` rather than succeeding silently. -/
theorem delete_finality (s s' : HistoryStore) (i : Nat) (ops : List StoreOp)
    (filt : Option (Option String))
    (hs : ∀ e ∈ s.entries, e.id < s.nextId)
    (hdel : deleteDiagram s i = Except.ok s') :
    i ∉ (getDiagrams (runOps s' ops) filt).map DiagramEntry.id ∧
      deleteDiagram (runOps s' ops) i = Except.error HistoryError.NotFoundError := by
  by_cases hh : hasEntry s i = true
  · simp only [deleteDiagram, hh, if_pos, Except.ok.injEq] at hdel
    subst hdel
    have hlt : i < s.nextId := by
      obtain ⟨e, he, rfl⟩ := List.mem_map.mp ((hasEntry_iff s i).mp hh)
      exact hs e he
    have habs0 : idAbsent i
        ⟨s.entries.filter (fun e => !(e.id == i)), s.collections, s.nextId⟩ := by
      refine ⟨hlt, ?_⟩
      intro hc
      obtain ⟨e, he, rfl⟩ := List.mem_map.mp hc
      have hef := List.of_mem_filter he
      simp at hef
    have habs := idAbsent_runOps i _ ops habs0
    refine ⟨?_, ?_⟩
    · intro hc
      apply habs.2
      cases filt with
      | none => exact hc
      | some c =>
        obtain ⟨e, he, rfl⟩ := List.mem_map.mp hc
        exact List.mem_map_of_mem _ (List.mem_of_mem_filter he)
    · have hne : ¬ hasEntry
          (runOps ⟨s.entries.filter (fun e => !(e.id == i)), s.collections, s.nextId⟩ ops)
          i = true :=
        fun hcon => habs.2 ((hasEntry_iff _ _).mp hcon)
      unfold deleteDiagram
      rw [if_neg hne]
  · simp [deleteDiagram, hh] at hdel

/-- Witness for C8 at a concrete one-entry store. -/
theorem delete_finality_witness :
    (0 : Nat) ∉ (getDiagrams (runOps (⟨[], [], 1⟩ : HistoryStore) []) none).map
        DiagramEntry.id ∧
      deleteDiagram (runOps (⟨[], [], 1⟩ : HistoryStore) []) 0
        = Except.error HistoryError.NotFoundError :=
  delete_finality ⟨[⟨0, "graph TD;A-->B", "flow", none, 3, 3⟩], [], 1⟩ ⟨[], [], 1⟩
    0 [] none (by decide) rfl

/-- C9: a successful `updateDiagram(id, {title})` rewrites only the matching
entry, and only its `title` and `updatedAt` fields — its `id`, `diagram`,
`collection` and `createdAt` survive verbatim, and every other entry is
carried over unchanged; when no entry has the id, the call fails with
`NotFoundError`. -/
theorem update_isolation (s : HistoryStore) (i : Nat) (t2 : String) (now : Nat) :
    (∀ s', updateDiagram s i ⟨some t2, none, none⟩ now = Except.ok s' →
      ∀ e ∈ s.entries,
        (e.id = i →
          (⟨e.id, e.diagram, t2, e.collection, e.createdAt, now⟩ : DiagramEntry)
            ∈ s'.entries) ∧
        (e.id ≠ i → e ∈ s'.entries)) ∧
      ((∀ e ∈ s.entries, e.id ≠ i) →
        updateDiagram s i ⟨some t2, none, none⟩ now
          = Except.error HistoryError.NotFoundError) := by
  constructor
  · intro s' hup e he
    by_cases hh : hasEntry s i = true
    · simp only [updateDiagram, hh, if_pos, Except.ok.injEq] at hup
      subst hup
      constructor
      · intro heq
        have hmem := List.mem_map_of_mem
          (fun e => if e.id == i then applyUpdate e ⟨some t2, none, none⟩ now else e) he
        simpa [heq, applyUpdate] using hmem
      · intro hne
        have hmem := List.mem_map_of_mem
          (fun e => if e.id == i then applyUpdate e ⟨some t2, none, none⟩ now else e) he
        simpa [hne] using hmem
    · simp [updateDiagram, hh] at hup
  · intro hall
    have hne : ¬ hasEntry s i = true := by
      intro hcon
      obtain ⟨e, he, rfl⟩ := List.mem_map.mp ((hasEntry_iff s i).mp hcon)
      exact hall e he rfl
    unfold updateDiagram
    rw [if_neg hne]

/-- Witness for C9: a title-only update of one of two entries, and a
`NotFoundError` on a store without the id. -/
theorem update_isolation_witness :
    ((⟨0, "graph TD;A-->B", "flow2", none, 0, 5⟩ : DiagramEntry)
        ∈ (⟨[⟨0, "graph TD;A-->B", "flow2", none, 0, 5⟩,
             ⟨1, "graph LR;X-->Y", "other", some "p", 0, 0⟩], ["p"], 2⟩
            : HistoryStore).entries) ∧
      updateDiagram (⟨[⟨1, "graph LR;X-->Y", "other", some "p", 0, 0⟩], ["p"], 2⟩
          : HistoryStore) 0 ⟨some "x", none, none⟩ 5
        = Except.error HistoryError.NotFoundError :=
  ⟨((update_isolation
      ⟨[⟨0, "graph TD;A-->B", "flow", none, 0, 0⟩,
        ⟨1, "graph LR;X-->Y", "other", some "p", 0, 0⟩], ["p"], 2⟩ 0 "flow2" 5).1
      ⟨[⟨0, "graph TD;A-->B", "flow2", none, 0, 5⟩,
        ⟨1, "graph LR;X-->Y", "other", some "p", 0, 0⟩], ["p"], 2⟩ rfl
      ⟨0, "graph TD;A-->B", "flow", none, 0, 0⟩ (by decide)).1 rfl,
    (update_isolation (⟨[⟨1, "graph LR;X-->Y", "other", some "p", 0, 0⟩], ["p"], 2⟩
        : HistoryStore) 0 "x" 5).2 (by decide)⟩

/-- C10: the call-tool dispatcher converts every failure into a normal
error-payload response instead of propagating an exception to the
transport: an unknown tool name yields `Unknown tool: <name>`, and a known
tool whose handler throws yields the thrown message. -/
theorem call_tool_errors_contained (name : String)
    (run : String → Except String String) :
    (name ≠ "render_mermaid" → name ≠ "open_ui" →
      handleCallTool name run
        = ToolCallResult.errorPayload ("Unknown tool: " ++ name)) ∧
      (∀ msg, (name = "render_mermaid" ∨ name = "open_ui") →
        run name = Except.error msg →
        handleCallTool name run = ToolCallResult.errorPayload msg) := by
  constructor
  · intro h1 h2
    have hb1 : (name == "render_mermaid") = false := by simpa using h1
    have hb2 : (name == "open_ui") = false := by simpa using h2
    simp [handleCallTool, hb1, hb2]
  · intro msg hor hrun
    rcases hor with h | h
    · subst h
      simp [handleCallTool, hrun]
    · subst h
      simp [handleCallTool, hrun]

/-- Witness for C10: a bogus tool name and a crashing `render_mermaid`
handler both produce error-payload responses. -/
theorem call_tool_errors_contained_witness :
    handleCallTool "bogus_tool" (fun _ => Except.ok "unused")
        = ToolCallResult.errorPayload ("Unknown tool: " ++ "bogus_tool") ∧
      handleCallTool "render_mermaid" (fun _ => Except.error "renderer crashed")
        = ToolCallResult.errorPayload "renderer crashed" :=
  ⟨(call_tool_errors_contained "bogus_tool" (fun _ => Except.ok "unused")).1
      (by decide) (by decide),
    (call_tool_errors_contained "render_mermaid"
      (fun _ => Except.error "renderer crashed")).2
      "renderer crashed" (Or.inl rfl) rfl⟩

end Mindpilot
